import Mathlib

/-!
Verification of the `configure_me` specification validator and manifest
locator against their natural-language specification.

The definitions below are a shallow embedding of
`src/configure_me_codegen/src/config.rs` (raw specification model and its
`validate` transformation) and of the build-environment discovery part of
`src/configure_me_codegen/src/manifest.rs`.  Rust `Option<T>` becomes
`Option T`, `Result<T, E>` becomes `Except E T`, `String` becomes `String`,
`Vec<T>` becomes `List T`, and the `?`-operator / `collect::<Result<...>>`
short-circuiting becomes explicit matches on `Except` values.
-/

/-! ## Error taxonomy of the validator (`ValidationErrorKind`, `ValidationError`) -/

inductive ValidationErrorKind where
  | MandatoryWithDefault
  | InvertedWithAbbr
  | InvertedWithCount
  | InvalidAbbr
  deriving DecidableEq, Repr

structure ValidationError where
  name : String
  kind : ValidationErrorKind
  deriving DecidableEq, Repr

/-! ## Validated data model (`Config`, `Param`, `Switch`, `General`, `Defaults`) -/

structure General where
  name : Option String
  summary : Option String
  doc : Option String
  env_prefix : Option String
  deriving DecidableEq, Repr

structure Defaults where
  args : Bool
  env_vars : Option Bool
  optional : Bool
  deriving DecidableEq, Repr

/-- `fn make_true() -> bool { true }`, the serde field default used by
`Defaults.args` and `Defaults.optional`. -/
def make_true : Bool := true

/-- `impl Default for Defaults` in `config.rs`. -/
def Defaults.default : Defaults :=
  { args := true, env_vars := none, optional := true }

/-- `#[derive(Default)]` on `General`: every field absent. -/
def General.default : General :=
  { name := none, summary := none, doc := none, env_prefix := none }

inductive Optionality where
  | Mandatory
  | Optional
  | DefaultValue (value : String)
  deriving DecidableEq, Repr

inductive SwitchKind where
  | Normal (abbr : Option Char) (count : Bool)
  | Inverted
  deriving DecidableEq, Repr

structure Param where
  name : String
  abbr : Option Char
  ty : String
  optionality : Optionality
  doc : Option String
  argument : Bool
  env_var : Bool
  convert_into : String
  deriving DecidableEq, Repr

structure Switch where
  name : String
  kind : SwitchKind
  doc : Option String
  env_var : Bool
  deriving DecidableEq, Repr

structure Config where
  general : General
  defaults : Defaults
  params : List Param
  switches : List Switch
  deriving DecidableEq, Repr

instance {ε α : Type} [DecidableEq ε] [DecidableEq α] :
    DecidableEq (Except ε α) := fun x y =>
  match x, y with
  | .error e, .error f => decidable_of_iff (e = f) (by simp)
  | .ok a, .ok b => decidable_of_iff (a = b) (by simp)
  | .error _, .ok _ => isFalse (fun h => Except.noConfusion h)
  | .ok _, .error _ => isFalse (fun h => Except.noConfusion h)

/-! ## Raw data model (`raw::Config`, `raw::Param`, `raw::Switch`) -/

structure RawParam where
  name : String
  abbr : Option String
  ty : String
  optional : Option Bool
  default : Option String
  doc : Option String
  argument : Option Bool
  env_var : Option Bool
  convert_into : Option String
  deriving DecidableEq, Repr

structure RawSwitch where
  name : String
  abbr : Option String
  default : Option Bool
  doc : Option String
  env_var : Option Bool
  count : Option Bool
  deriving DecidableEq, Repr

structure RawConfig where
  params : List RawParam
  switches : List RawSwitch
  general : General
  defaults : Defaults
  deriving DecidableEq, Repr

/-! ## Validation -/

/-- Rust `String::pop`: split a string into its last character (if any) and
the remaining front part. -/
def strPop (s : String) : Option Char × String :=
  (s.data.getLast?, String.mk s.data.dropLast)

/-- The optionality `match` of `raw::Param::validate` (config.rs lines
78-85), arm for arm and in the same order. -/
def resolveOptionality (name : String) (optional : Option Bool)
    (default_optional : Bool) (dflt : Option String) :
    Except ValidationError Optionality :=
  match optional, default_optional, dflt with
  | some false, _, none => .ok .Mandatory
  | some false, _, some _ => .error ⟨name, .MandatoryWithDefault⟩
  | some true, _, none => .ok .Optional
  | _, _, some d => .ok (.DefaultValue d)
  | none, true, none => .ok .Optional
  | none, false, none => .ok .Mandatory

/-- The abbreviation block of `raw::Param::validate` (config.rs lines
87-100) for a present abbreviation string: pop the last character, reject
if anything remains in front, reject if the string was empty. -/
def resolveParamAbbr (name : String) (abbr : String) :
    Except ValidationError Char :=
  let p := strPop abbr
  if 0 < p.2.length then
    .error ⟨name, .InvalidAbbr⟩
  else
    match p.1 with
    | some c => .ok c
    | none => .error ⟨name, .InvalidAbbr⟩

/-- The abbreviation block of `raw::Param::validate` including the
absent-abbreviation case. -/
def resolveParamAbbrOpt (name : String) (abbr : Option String) :
    Except ValidationError (Option Char) :=
  match abbr with
  | some a =>
    match resolveParamAbbr name a with
    | .ok c => .ok (some c)
    | .error e => .error e
  | none => .ok none

/-- `raw::Param::validate` (config.rs lines 75-117). -/
def RawParam.validate (p : RawParam) (default_optional default_argument
    default_env_var : Bool) : Except ValidationError Param :=
  match resolveOptionality p.name p.optional default_optional p.default with
  | .error e => .error e
  | .ok optionality =>
    match resolveParamAbbrOpt p.name p.abbr with
    | .error e => .error e
    | .ok abbr =>
      .ok { name := p.name
            abbr := abbr
            ty := p.ty
            optionality := optionality
            doc := p.doc
            argument := p.argument.getD default_argument
            env_var := p.env_var.getD default_env_var
            convert_into := p.convert_into.getD p.ty }

/-- The character-class test of the switch abbreviation guard
(config.rs line 143): `(chr >= 'a' && chr <= 'z') || (chr >= 'A' && chr <= 'Z')`. -/
def isAsciiLetter (c : Char) : Bool :=
  (('a' ≤ c) && (c ≤ 'z')) || (('A' ≤ c) && (c ≤ 'Z'))

/-- The kind `match` of `raw::Switch::validate` (config.rs lines 136-152),
arm for arm and in the same order. -/
def resolveSwitchKind (name : String) (abbr : Option String)
    (dflt : Option Bool) (count : Option Bool) :
    Except ValidationError SwitchKind :=
  match abbr, dflt, count with
  | some _, some true, _ => .error ⟨name, .InvertedWithAbbr⟩
  | _, some true, some true => .error ⟨name, .InvertedWithCount⟩
  | none, some true, none => .ok .Inverted
  | none, some true, some false => .ok .Inverted
  | abbr, _, count =>
    match abbr with
    | some a =>
      let p := strPop a
      match p.1 with
      | some chr =>
        if p.2.length == 0 && isAsciiLetter chr then
          .ok (.Normal (some chr) (count.getD false))
        else
          .error ⟨name, .InvalidAbbr⟩
      | none => .error ⟨name, .InvalidAbbr⟩
    | none => .ok (.Normal none (count.getD false))

/-- `raw::Switch::validate` (config.rs lines 133-160). -/
def RawSwitch.validate (s : RawSwitch) (default_env_var : Bool) :
    Except ValidationError Switch :=
  match resolveSwitchKind s.name s.abbr s.default s.count with
  | .error e => .error e
  | .ok kind =>
    .ok { name := s.name
          kind := kind
          doc := s.doc
          env_var := s.env_var.getD default_env_var }

/-- Left-to-right, short-circuiting validation of a list: the embedding of
`into_iter().map(...).collect::<Result<Vec<_>, _>>()`. -/
def validateList {α β : Type} (f : α → Except ValidationError β) :
    List α → Except ValidationError (List β)
  | [] => .ok []
  | x :: xs =>
    match f x with
    | .error e => .error e
    | .ok y =>
      match validateList f xs with
      | .error e => .error e
      | .ok ys => .ok (y :: ys)

/-- `default_env_var` as computed at config.rs line 38:
`self.defaults.env_vars.unwrap_or(self.general.env_prefix.is_some())`. -/
def default_env_var_of (c : RawConfig) : Bool :=
  c.defaults.env_vars.getD (Option.isSome ( General.env_prefix c.general))

/-- `raw::Config::validate` (config.rs lines 35-55). -/
def RawConfig.validate (c : RawConfig) : Except ValidationError Config :=
  let default_optional := c.defaults.optional
  let default_argument := c.defaults.args
  let default_env_var := default_env_var_of c
  match validateList
      (fun p => p.validate default_optional default_argument default_env_var)
      c.params with
  | .error e => .error e
  | .ok params =>
    match validateList (fun s => s.validate default_env_var) c.switches with
    | .error e => .error e
    | .ok switches =>
      .ok { general := c.general
            defaults := c.defaults
            params := params
            switches := switches }

/-! ## Manifest locator: build-environment discovery (`manifest.rs`) -/

/-- `LoadError` of manifest.rs: the underlying `cargo_toml::Error` is an
external type, modelled here as an opaque description string, together with
the attempted path. -/
structure LoadErr where
  path : String
  cause : String
  deriving DecidableEq, Repr

/-- Modelled from the spec: the crate-level error taxonomy for manifest
location.  The crate root error type (`Error` / `ErrorData`, which
`manifest.rs` constructs as `super::Error` and which adds
`MissingManifestDirEnvVar` to the variants of `manifest::Error`) is not
under `src/`; the spec lists the taxonomy as
`{Load(path, underlying-cause), MissingPackage, MissingMetadata,
MissingConfigureMeMetadata, MissingManifestDirEnvVar, Other(reserved)}`
with `Other` reserved and never constructed (it is therefore omitted
here). -/
inductive LocError where
  | Load (path : String) (cause : String)
  | MissingPackage
  | MissingMetadata
  | MissingConfigureMeMetadata
  | MissingManifestDirEnvVar
  deriving DecidableEq, Repr

/-- The well-known build-context environment variable read by `get_dir`. -/
def cargo_manifest_dir_var : String := "CARGO_MANIFEST_DIR"

/-- `get_dir` (manifest.rs lines 224-230): read `CARGO_MANIFEST_DIR` from
the environment (modelled as a lookup function), absent means the distinct
`MissingManifestDirEnvVar` error.  -/
def get_dir (env : String → Option String) : Except LocError String :=
  match env cargo_manifest_dir_var with
  | none => .error .MissingManifestDirEnvVar
  | some d => .ok d

/-- `PathBuf::join` for the one concrete use in `BuildScript::load_manifest`. -/
def pathJoin (dir file : String) : String := dir ++ "/" ++ file

/-- `<BuildScript as LoadManifest>::load_manifest` (manifest.rs lines
184-193): discover the manifest directory from the environment, then
delegate to filesystem-path resolution of `Cargo.toml` joined to it
(`load_path` models `Manifest::from_path_with_metadata` wrapped into
`LoadError`, i.e. `PathBuf::load_manifest`), converting the load error
through `Into` (`Error::Load`). -/
def BuildScript.load_manifest {M : Type} (env : String → Option String)
    (load_path : String → Except LoadErr M) : Except LocError M :=
  match get_dir env with
  | .error e => .error e
  | .ok manifest_dir =>
    match load_path (pathJoin manifest_dir "Cargo.toml") with
    | .ok m => .ok m
    | .error le => .error (.Load le.path le.cause)

/-! ## Helper lemmas -/

lemma validate_ok_param_fields (p : RawParam) (dopt darg denv : Bool)
    (q : Param) (h : RawParam.validate p dopt darg denv = .ok q) :
    q.name = p.name ∧ q.ty = p.ty ∧ q.doc = p.doc ∧
    q.argument = p.argument.getD darg ∧
    q.env_var = p.env_var.getD denv ∧
    q.convert_into = p.convert_into.getD p.ty ∧
    resolveOptionality p.name p.optional dopt p.default = .ok q.optionality ∧
    resolveParamAbbrOpt p.name p.abbr = .ok q.abbr := by
  unfold RawParam.validate at h
  cases h1 : resolveOptionality p.name p.optional dopt p.default with
  | error e => simp [h1] at h
  | ok o =>
    cases h2 : resolveParamAbbrOpt p.name p.abbr with
    | error e => simp [h1, h2] at h
    | ok ab =>
      simp [h1, h2] at h
      subst h
      exact ⟨rfl, rfl, rfl, rfl, rfl, rfl, rfl, rfl⟩

lemma validate_ok_switch_fields (s : RawSwitch) (denv : Bool)
    (t : Switch) (h : RawSwitch.validate s denv = .ok t) :
    t.name = s.name ∧ t.doc = s.doc ∧ t.env_var = s.env_var.getD denv ∧
    resolveSwitchKind s.name s.abbr s.default s.count = .ok t.kind := by
  unfold RawSwitch.validate at h
  cases h1 : resolveSwitchKind s.name s.abbr s.default s.count with
  | error e => simp [h1] at h
  | ok k =>
    simp [h1] at h
    subst h
    exact ⟨rfl, rfl, rfl, rfl⟩

lemma validate_ok_config_parts (c : RawConfig) (cfg : Config)
    (h : RawConfig.validate c = .ok cfg) :
    cfg.general = c.general ∧ cfg.defaults = c.defaults ∧
    validateList
      (fun p => RawParam.validate p c.defaults.optional c.defaults.args
        (default_env_var_of c)) c.params = .ok cfg.params ∧
    validateList (fun s => RawSwitch.validate s (default_env_var_of c))
      c.switches = .ok cfg.switches := by
  unfold RawConfig.validate at h
  cases h1 : validateList
      (fun p => RawParam.validate p c.defaults.optional c.defaults.args
        (default_env_var_of c)) c.params with
  | error e => simp [h1] at h
  | ok ps =>
    cases h2 : validateList
        (fun s => RawSwitch.validate s (default_env_var_of c)) c.switches with
    | error e => simp [h1, h2] at h
    | ok ss =>
      simp [h1, h2] at h
      subst h
      exact ⟨rfl, rfl, rfl, rfl⟩

lemma validateList_ok_iff {α β : Type} (f : α → Except ValidationError β) :
    ∀ (l : List α) (l' : List β),
      validateList f l = .ok l' ↔
        List.Forall₂ (fun a b => f a = .ok b) l l' := by
  intro l
  induction l with
  | nil =>
    intro l'
    constructor
    · intro h
      simp only [validateList] at h
      cases h
      exact List.Forall₂.nil
    · intro h
      cases h
      rfl
  | cons x xs ih =>
    intro l'
    constructor
    · intro h
      simp only [validateList] at h
      cases h1 : f x with
      | error e => simp [h1] at h
      | ok y =>
        simp only [h1] at h
        cases h2 : validateList f xs with
        | error e => simp [h2] at h
        | ok ys =>
          simp only [h2] at h
          cases h
          exact List.Forall₂.cons h1 ((ih ys).mp h2)
    · intro h
      cases h with
      | cons hxy htail =>
        simp [validateList, hxy, (ih _).mpr htail]

lemma validateList_isOk_iff {α β : Type} (f : α → Except ValidationError β)
    (l : List α) :
    (∃ l', validateList f l = .ok l') ↔ ∀ x ∈ l, ∃ b, f x = .ok b := by
  constructor
  · rintro ⟨l', hl⟩ x hx
    have hall := (validateList_ok_iff f l l').mp hl
    clear hl
    induction hall with
    | nil => cases hx
    | cons hr _ ih =>
      rcases List.mem_cons.mp hx with rfl | hmem
      · exact ⟨_, hr⟩
      · exact ih hmem
  · intro h
    induction l with
    | nil => exact ⟨[], rfl⟩
    | cons x xs ih =>
      obtain ⟨b, hb⟩ := h x (List.mem_cons_self x xs)
      obtain ⟨l', hl'⟩ := ih (fun y hy => h y (List.mem_cons_of_mem x hy))
      exact ⟨b :: l', by simp [validateList, hb, hl']⟩

lemma validateList_error_iff {α β : Type} (f : α → Except ValidationError β)
    (e : ValidationError) :
    ∀ l : List α,
      validateList f l = .error e ↔
        ∃ l1 a l2, l = l1 ++ a :: l2 ∧
          (∀ x ∈ l1, ∃ b, f x = .ok b) ∧ f a = .error e := by
  intro l
  induction l with
  | nil =>
    constructor
    · intro h
      exact absurd h (by simp [validateList])
    · rintro ⟨l1, a, l2, habs, -, -⟩
      cases l1 <;> simp at habs
  | cons x xs ih =>
    constructor
    · intro h
      simp only [validateList] at h
      cases h1 : f x with
      | error e' =>
        simp [h1] at h
        subst h
        exact ⟨[], x, xs, rfl, by simp, h1⟩
      | ok y =>
        simp only [h1] at h
        cases h2 : validateList f xs with
        | error e' =>
          simp [h2] at h
          subst h
          obtain ⟨l1, a, l2, hsplit, hok, ha⟩ := ih.mp h2
          refine ⟨x :: l1, a, l2, by simp [hsplit], ?_, ha⟩
          intro z hz
          rcases List.mem_cons.mp hz with rfl | hz
          · exact ⟨y, h1⟩
          · exact hok z hz
        | ok ys => simp [h2] at h
    · rintro ⟨l1, a, l2, hsplit, hok, ha⟩
      cases l1 with
      | nil =>
        simp only [List.nil_append] at hsplit
        cases hsplit
        simp [validateList, ha]
      | cons z l1' =>
        simp only [List.cons_append, List.cons.injEq] at hsplit
        obtain ⟨rfl, hxs⟩ := hsplit
        obtain ⟨b, hb⟩ := hok x (by simp)
        have hrec : validateList f xs = .error e :=
          ih.mpr ⟨l1', a, l2, hxs, fun z hz => hok z (by simp [hz]), ha⟩
        simp [validateList, hb, hrec]

/-! ## Claim theorems -/

/-- C1: validation resolves a raw parameter's optionality by the
priority-ordered case analysis over (optional, computed default-optional,
default): explicit `optional = false` with no default gives `Mandatory`;
explicit `optional = true` with no default gives `Optional`; any case where
a default expression is present and `optional` is not explicitly `false`
gives `DefaultValue(expression)` regardless of the computed default-optional
flag; with `optional` unset and no default the result is `Optional` exactly
when the computed default-optional flag is true and `Mandatory` when it is
false.  The last clause ties the case analysis to `raw::Param::validate`:
the optionality stored in the validated parameter is the one resolved
here. -/
theorem param_optionality_cases (p : RawParam) (dopt : Bool) :
    (p.optional = some false → p.default = none →
      resolveOptionality p.name p.optional dopt p.default = .ok .Mandatory) ∧
    (p.optional = some true → p.default = none →
      resolveOptionality p.name p.optional dopt p.default = .ok .Optional) ∧
    (p.optional ≠ some false → ∀ d, p.default = some d →
      resolveOptionality p.name p.optional dopt p.default =
        .ok (.DefaultValue d)) ∧
    (p.optional = none → p.default = none →
      resolveOptionality p.name p.optional dopt p.default =
        .ok (if dopt then .Optional else .Mandatory)) ∧
    (∀ darg denv q, RawParam.validate p dopt darg denv = .ok q →
      resolveOptionality p.name p.optional dopt p.default =
        .ok q.optionality) := by
  refine ⟨?_, ?_, ?_, ?_, ?_⟩
  · intro h1 h2
    rw [h1, h2]
    cases dopt <;> rfl
  · intro h1 h2
    rw [h1, h2]
    cases dopt <;> rfl
  · intro h1 d h2
    rw [h2]
    rcases hopt : p.optional with _ | b
    · cases dopt <;> rfl
    · cases b
      · exact absurd hopt h1
      · cases dopt <;> rfl
  · intro h1 h2
    rw [h1, h2]
    cases dopt <;> rfl
  · intro darg denv q h
    exact (validate_ok_param_fields p dopt darg denv q h).2.2.2.2.2.2.1

theorem param_optionality_cases_witness :
    resolveOptionality "port" (some false) true none = .ok .Mandatory :=
  (param_optionality_cases
    { name := "port", abbr := none, ty := "u16", optional := some false,
      default := none, doc := none, argument := none, env_var := none,
      convert_into := none } true).1 rfl rfl

/-- C3: a raw parameter with `optional` explicitly `false` and a default
expression present is rejected by `raw::Param::validate` with the
`MandatoryWithDefault` error carrying the parameter's name, whatever the
computed default-optional flag is, and before any other interpretation of
the default (in particular even when the abbreviation would also be
invalid). -/
theorem param_mandatory_with_default (p : RawParam) (dopt darg denv : Bool)
    (d : String) (h1 : p.optional = some false) (h2 : p.default = some d) :
    RawParam.validate p dopt darg denv =
      .error ⟨p.name, .MandatoryWithDefault⟩ := by
  have hres : resolveOptionality p.name p.optional dopt p.default =
      .error ⟨p.name, .MandatoryWithDefault⟩ := by
    rw [h1, h2]
    cases dopt <;> rfl
  simp [RawParam.validate, hres]

theorem param_mandatory_with_default_witness :
    RawParam.validate
      { name := "port", abbr := some "toolong", ty := "u16",
        optional := some false, default := some "42", doc := none,
        argument := none, env_var := none, convert_into := none }
      true true true = .error ⟨"port", .MandatoryWithDefault⟩ :=
  param_mandatory_with_default _ true true true "42" rfl rfl

/-- C5: a parameter abbreviation string of exactly one character resolves
successfully to that character, with no character-class restriction; a
string of length 0 or of length at least 2 fails with `InvalidAbbr`. -/
theorem param_abbr_resolution (n : String) (ch : Char) (s : String) :
    resolveParamAbbr n (String.singleton ch) = .ok ch ∧
    (s.length = 1 → ∃ c, s = String.singleton c ∧
      resolveParamAbbr n s = .ok c) ∧
    (s.length = 0 → resolveParamAbbr n s = .error ⟨n, .InvalidAbbr⟩) ∧
    (2 ≤ s.length → resolveParamAbbr n s = .error ⟨n, .InvalidAbbr⟩) := by
  have hsing : ∀ c : Char, resolveParamAbbr n (String.singleton c) = .ok c := by
    intro c
    rfl
  refine ⟨hsing ch, ?_, ?_, ?_⟩
  · intro h
    obtain ⟨l⟩ := s
    have : l.length = 1 := h
    match l, this with
    | [c], _ => exact ⟨c, rfl, hsing c⟩
  · intro h
    obtain ⟨l⟩ := s
    have : l.length = 0 := h
    match l, this with
    | [], _ => rfl
  · intro h
    obtain ⟨l⟩ := s
    have hlen : 2 ≤ l.length := h
    match l, hlen with
    | a :: b :: l3, _ =>
      have hpos : 0 < (String.mk (List.dropLast (a :: b :: l3))).length := by
        have : (String.mk (List.dropLast (a :: b :: l3))).length =
            (List.dropLast (a :: b :: l3)).length := rfl
        rw [this, List.length_dropLast]
        simp
      simp only [resolveParamAbbr, strPop]
      rw [if_pos hpos]

theorem param_abbr_resolution_witness :
    resolveParamAbbr "port" (String.singleton '#') = .ok '#' ∧
    resolveParamAbbr "port" "ab" = .error ⟨"port", .InvalidAbbr⟩ :=
  ⟨(param_abbr_resolution "port" '#' "ab").1,
   (param_abbr_resolution "port" '#' "ab").2.2.2 (by decide)⟩

/-! ### Switch-kind helper lemmas -/

lemma resolveSwitchKind_not_inverted_none (n : String) (d c : Option Bool)
    (hd : d ≠ some true) :
    resolveSwitchKind n none d c = .ok (.Normal none (c.getD false)) := by
  rcases d with _ | (_ | _)
  · rfl
  · rfl
  · exact absurd rfl hd

lemma resolveSwitchKind_not_inverted_single (n : String) (d c : Option Bool)
    (hd : d ≠ some true) (a : Char) :
    resolveSwitchKind n (some (String.singleton a)) d c =
      if isAsciiLetter a then .ok (.Normal (some a) (c.getD false))
      else .error ⟨n, .InvalidAbbr⟩ := by
  rcases d with _ | (_ | _)
  · rfl
  · rfl
  · exact absurd rfl hd

lemma resolveSwitchKind_valid_abbr (n : String) (d c : Option Bool)
    (hd : d ≠ some true) (ch : Char) (hch : isAsciiLetter ch = true) :
    resolveSwitchKind n (some (String.singleton ch)) d c =
      .ok (.Normal (some ch) (c.getD false)) := by
  rw [resolveSwitchKind_not_inverted_single n d c hd ch, if_pos hch]

lemma resolveSwitchKind_invalid_abbr (n : String) (d c : Option Bool)
    (hd : d ≠ some true) (s : String)
    (hs : ∀ ch, s = String.singleton ch → isAsciiLetter ch = false) :
    resolveSwitchKind n (some s) d c = .error ⟨n, .InvalidAbbr⟩ := by
  obtain ⟨l⟩ := s
  match l with
  | [] =>
    rcases d with _ | (_ | _)
    · rfl
    · rfl
    · exact absurd rfl hd
  | [a] =>
    have ha : isAsciiLetter a = false := hs a rfl
    rw [show String.mk [a] = String.singleton a from rfl,
      resolveSwitchKind_not_inverted_single n d c hd a, if_neg (by simp [ha])]
  | a :: b :: l3 =>
    rcases d with _ | (_ | _)
    · rfl
    · rfl
    · exact absurd rfl hd

lemma resolveSwitchKind_abbr_digit (n : String) (d c : Option Bool)
    (hd : d ≠ some true) :
    resolveSwitchKind n (some "3") d c = .error ⟨n, .InvalidAbbr⟩ := by
  rcases d with _ | (_ | _)
  · rfl
  · rfl
  · exact absurd rfl hd

lemma resolveSwitchKind_abbr_letter_p (n : String) (d c : Option Bool)
    (hd : d ≠ some true) :
    resolveSwitchKind n (some "p") d c =
      .ok (.Normal (some 'p') (c.getD false)) := by
  rcases d with _ | (_ | _)
  · rfl
  · rfl
  · exact absurd rfl hd

/-- C2 counterexample: the claim's final clause asserts that every switch
whose default is not explicitly true resolves to `Normal`, but a switch
with abbreviation `"3"` and no default fails with `InvalidAbbr` instead of
resolving to any `Normal` kind. -/
theorem switch_kind_cases_counterexample :
    resolveSwitchKind "s" (some "3") none none = .error ⟨"s", .InvalidAbbr⟩ ∧
    ¬ ∃ ab cnt, resolveSwitchKind "s" (some "3") none none =
        .ok (.Normal ab cnt) := by
  have he : resolveSwitchKind "s" (some "3") none none =
      .error ⟨"s", .InvalidAbbr⟩ := by decide
  refine ⟨he, ?_⟩
  rintro ⟨ab, cnt, h⟩
  rw [he] at h
  exact Except.noConfusion h

/-- C2 (amended): validation resolves a raw switch's kind by the
priority-ordered case analysis over (abbr, default, count): an abbreviation
present together with default explicitly true fails with `InvertedWithAbbr`
even if count is also set; default explicitly true with count explicitly
true and no abbreviation fails with `InvertedWithCount`; default explicitly
true with no abbreviation and count absent or explicitly false gives
`Inverted`; otherwise (default not true or absent) the switch is `Normal`
with count defaulting to false when unset, provided its abbreviation, if
present, is a single ASCII letter — an abbreviation that is not a single
ASCII letter fails with `InvalidAbbr`. -/
theorem switch_kind_cases (n : String) (a : String) (d c : Option Bool) :
    (∀ cnt, resolveSwitchKind n (some a) (some true) cnt =
      .error ⟨n, .InvertedWithAbbr⟩) ∧
    resolveSwitchKind n none (some true) (some true) =
      .error ⟨n, .InvertedWithCount⟩ ∧
    resolveSwitchKind n none (some true) none = .ok .Inverted ∧
    resolveSwitchKind n none (some true) (some false) = .ok .Inverted ∧
    (d ≠ some true → resolveSwitchKind n none d c =
      .ok (.Normal none (c.getD false))) ∧
    (d ≠ some true → ∀ ch, isAsciiLetter ch = true →
      resolveSwitchKind n (some (String.singleton ch)) d c =
        .ok (.Normal (some ch) (c.getD false))) ∧
    (d ≠ some true →
      (∀ ch, a = String.singleton ch → isAsciiLetter ch = false) →
      resolveSwitchKind n (some a) d c = .error ⟨n, .InvalidAbbr⟩) := by
  refine ⟨?_, rfl, rfl, rfl, ?_, ?_, ?_⟩
  · intro cnt
    rcases cnt with _ | (_ | _) <;> rfl
  · exact fun hd => resolveSwitchKind_not_inverted_none n d c hd
  · exact fun hd ch hch => resolveSwitchKind_valid_abbr n d c hd ch hch
  · exact fun hd hs => resolveSwitchKind_invalid_abbr n d c hd a hs

theorem switch_kind_cases_witness :
    resolveSwitchKind "quiet" (some "v") (some true) none =
      .error ⟨"quiet", .InvertedWithAbbr⟩ ∧
    resolveSwitchKind "quiet" none (some true) none = .ok .Inverted ∧
    resolveSwitchKind "verbose" (some (String.singleton 'v')) none
      (some true) = .ok (.Normal (some 'v') true) :=
  ⟨(switch_kind_cases "quiet" "v" none none).1 none,
   (switch_kind_cases "quiet" "v" none none).2.2.1,
   (switch_kind_cases "verbose" "v" none (some true)).2.2.2.2.2.1
     (by decide) 'v' (by decide)⟩

/-- C6: on the non-inverted path (default not explicitly true) a present
switch abbreviation validates successfully exactly when it is a single
ASCII letter (a-z or A-Z), in which case the resolved kind keeps that
letter; any other abbreviation string fails with `InvalidAbbr`.  In
particular abbreviation `"3"` fails with `InvalidAbbr` and abbreviation
`"p"` succeeds. -/
theorem switch_abbr_ascii (n : String) (d c : Option Bool)
    (hd : d ≠ some true) :
    (∀ ch, isAsciiLetter ch = true →
      resolveSwitchKind n (some (String.singleton ch)) d c =
        .ok (.Normal (some ch) (c.getD false))) ∧
    (∀ s : String,
      (∀ ch, s = String.singleton ch → isAsciiLetter ch = false) →
      resolveSwitchKind n (some s) d c = .error ⟨n, .InvalidAbbr⟩) ∧
    resolveSwitchKind n (some "3") d c = .error ⟨n, .InvalidAbbr⟩ ∧
    resolveSwitchKind n (some "p") d c =
      .ok (.Normal (some 'p') (c.getD false)) :=
  ⟨fun ch hch => resolveSwitchKind_valid_abbr n d c hd ch hch,
   fun s hs => resolveSwitchKind_invalid_abbr n d c hd s hs,
   resolveSwitchKind_abbr_digit n d c hd,
   resolveSwitchKind_abbr_letter_p n d c hd⟩

theorem switch_abbr_ascii_witness :
    resolveSwitchKind "s" (some "3") none none =
      .error ⟨"s", .InvalidAbbr⟩ ∧
    resolveSwitchKind "s" (some "p") none none =
      .ok (.Normal (some 'p') false) :=
  ⟨(switch_abbr_ascii "s" none none (by decide)).2.2.1,
   (switch_abbr_ascii "s" none none (by decide)).2.2.2⟩

/-! ### Concrete witness data -/

def envWitnessRaw : RawConfig :=
  { params := [{ name := "bind_addr", abbr := none, ty := "String",
                 optional := none, default := none, doc := none,
                 argument := none, env_var := none, convert_into := none }]
    switches := [{ name := "verbose", abbr := none, default := none,
                   doc := none, env_var := none, count := none }]
    general := { name := none, summary := none, doc := none,
                 env_prefix := some "APP" }
    defaults := { args := true, env_vars := none, optional := true } }

def envWitnessCfg : Config :=
  { general := { name := none, summary := none, doc := none,
                 env_prefix := some "APP" }
    defaults := { args := true, env_vars := none, optional := true }
    params := [{ name := "bind_addr", abbr := none, ty := "String",
                 optionality := .Optional, doc := none, argument := true,
                 env_var := true, convert_into := "String" }]
    switches := [{ name := "verbose", kind := .Normal none false,
                   doc := none, env_var := true }] }

def failFastParam1 : RawParam :=
  { name := "bad1", abbr := none, ty := "u16", optional := some false,
    default := some "42", doc := none, argument := none, env_var := none,
    convert_into := none }

def failFastParam2 : RawParam :=
  { name := "bad2", abbr := some "toolong", ty := "u16", optional := none,
    default := none, doc := none, argument := none, env_var := none,
    convert_into := none }

def failFastRaw : RawConfig :=
  { params := [failFastParam1, failFastParam2]
    switches := [{ name := "badswitch", abbr := some "b",
                   default := some true, doc := none, env_var := none,
                   count := none }]
    general := General.default
    defaults := Defaults.default }

/-- C4: the default environment-variable-sourcing flag is
`defaults.env_vars` when set and otherwise the presence of
`general.env_prefix`; every parameter and switch whose own `env_var`
field is unset resolves its flag to this computed default, and with an
environment prefix configured and `defaults.env_vars` unset the computed
default is `true`. -/
theorem env_var_default_resolution (c : RawConfig) (cfg : Config)
    (h : RawConfig.validate c = .ok cfg) :
    (∀ b, c.defaults.env_vars = some b → default_env_var_of c = b) ∧
    (c.defaults.env_vars = none →
      default_env_var_of c =
        Option.isSome ( General.env_prefix c.general)) ∧
    (c.defaults.env_vars = none →
      Option.isSome ( General.env_prefix c.general) = true →
      default_env_var_of c = true) ∧
    List.Forall₂ (fun (p : RawParam) (q : Param) =>
      p.env_var = none → q.env_var = default_env_var_of c)
      c.params cfg.params ∧
    List.Forall₂ (fun (s : RawSwitch) (t : Switch) =>
      s.env_var = none → t.env_var = default_env_var_of c)
      c.switches cfg.switches := by
  obtain ⟨-, -, hp, hs⟩ := validate_ok_config_parts c cfg h
  refine ⟨?_, ?_, ?_, ?_, ?_⟩
  · intro b hb
    simp [default_env_var_of, hb]
  · intro hb
    simp [default_env_var_of, hb]
  · intro hb hsome
    simp [default_env_var_of, hb, hsome]
  · refine ((validateList_ok_iff _ c.params cfg.params).mp hp).imp ?_
    intro p q hpq hnone
    have hf := (validate_ok_param_fields p c.defaults.optional
      c.defaults.args (default_env_var_of c) q hpq).2.2.2.2.1
    rw [hnone] at hf
    simpa using hf
  · refine ((validateList_ok_iff _ c.switches cfg.switches).mp hs).imp ?_
    intro s t hst hnone
    have hf := (validate_ok_switch_fields s (default_env_var_of c) t
      hst).2.2.1
    rw [hnone] at hf
    simpa using hf

theorem env_var_default_resolution_witness :
    default_env_var_of envWitnessRaw = true ∧
    List.Forall₂ (fun (p : RawParam) (q : Param) =>
      p.env_var = none → q.env_var = default_env_var_of envWitnessRaw)
      envWitnessRaw.params envWitnessCfg.params :=
  ⟨(env_var_default_resolution envWitnessRaw envWitnessCfg
      (by decide)).2.2.1 rfl rfl,
   (env_var_default_resolution envWitnessRaw envWitnessCfg
      (by decide)).2.2.2.1⟩

/-- C9: with the defaults section (or its fields) omitted, the resolved
fallback settings are `args = true`, `env_vars` unset and `optional = true`;
consequently a parameter validated under these defaults with `optional`
unset, no default expression and `argument` unset resolves to `Optional`
with `argument = true`. -/
theorem defaults_fallback (p : RawParam) (denv : Bool) (q : Param)
    (h1 : p.optional = none) (h2 : p.default = none) (h3 : p.argument = none)
    (hv : RawParam.validate p Defaults.default.optional Defaults.default.args
      denv = .ok q) :
    Defaults.default.args = true ∧ Defaults.default.env_vars = none ∧
    Defaults.default.optional = true ∧ make_true = true ∧
    q.optionality = .Optional ∧ q.argument = true := by
  obtain ⟨-, -, -, harg, -, -, hopt, -⟩ :=
    validate_ok_param_fields p _ _ _ q hv
  refine ⟨rfl, rfl, rfl, rfl, ?_, ?_⟩
  · rw [h1, h2] at hopt
    have h' : (Except.ok Optionality.Optional :
        Except ValidationError Optionality) = .ok q.optionality := hopt
    injection h' with h''
    exact h''.symm
  · rw [h3] at harg
    simpa [Defaults.default] using harg

theorem defaults_fallback_witness :
    Defaults.default.env_vars = none ∧
    Param.optionality
      { name := "tls_cert", abbr := none, ty := "String",
        optionality := .Optional, doc := none, argument := true,
        env_var := false, convert_into := "String" } = .Optional :=
  ⟨(defaults_fallback
      { name := "tls_cert", abbr := none, ty := "String", optional := none,
        default := none, doc := none, argument := none, env_var := none,
        convert_into := none } false
      { name := "tls_cert", abbr := none, ty := "String",
        optionality := .Optional, doc := none, argument := true,
        env_var := false, convert_into := "String" }
      rfl rfl rfl (by decide)).2.1,
   (defaults_fallback
      { name := "tls_cert", abbr := none, ty := "String", optional := none,
        default := none, doc := none, argument := none, env_var := none,
        convert_into := none } false
      { name := "tls_cert", abbr := none, ty := "String",
        optionality := .Optional, doc := none, argument := true,
        env_var := false, convert_into := "String" }
      rfl rfl rfl (by decide)).2.2.2.2.1⟩

/-- C10: a successful validation carries the general and defaults sections
through unchanged and produces exactly the element-wise validations of the
input lists, preserving number, order, name, declared type and
documentation of every parameter and switch; a parameter's conversion
target type equals its declared type whenever `convert_into` is
unspecified. -/
theorem validate_frame (c : RawConfig) (cfg : Config)
    (h : RawConfig.validate c = .ok cfg) :
    cfg.general = c.general ∧ cfg.defaults = c.defaults ∧
    cfg.params.length = c.params.length ∧
    cfg.switches.length = c.switches.length ∧
    List.Forall₂ (fun (p : RawParam) (q : Param) =>
      RawParam.validate p c.defaults.optional c.defaults.args
        (default_env_var_of c) = .ok q ∧
      q.name = p.name ∧ q.ty = p.ty ∧ q.doc = p.doc ∧
      (p.convert_into = none → q.convert_into = p.ty))
      c.params cfg.params ∧
    List.Forall₂ (fun (s : RawSwitch) (t : Switch) =>
      RawSwitch.validate s (default_env_var_of c) = .ok t ∧
      t.name = s.name ∧ t.doc = s.doc) c.switches cfg.switches := by
  obtain ⟨hg, hd, hp, hs⟩ := validate_ok_config_parts c cfg h
  have hp2 := (validateList_ok_iff _ c.params cfg.params).mp hp
  have hs2 := (validateList_ok_iff _ c.switches cfg.switches).mp hs
  refine ⟨hg, hd, hp2.length_eq.symm, hs2.length_eq.symm, ?_, ?_⟩
  · refine hp2.imp ?_
    intro p q hpq
    obtain ⟨hn, hty, hdoc, -, -, hconv, -, -⟩ :=
      validate_ok_param_fields p _ _ _ q hpq
    exact ⟨hpq, hn, hty, hdoc, fun hc => by rw [hconv, hc]; rfl⟩
  · refine hs2.imp ?_
    intro s t hst
    obtain ⟨hn, hdoc, -, -⟩ := validate_ok_switch_fields s _ t hst
    exact ⟨hst, hn, hdoc⟩

theorem validate_frame_witness :
    Config.general envWitnessCfg = RawConfig.general envWitnessRaw ∧
    Config.defaults envWitnessCfg = RawConfig.defaults envWitnessRaw :=
  ⟨(validate_frame envWitnessRaw envWitnessCfg (by decide)).1,
   (validate_frame envWitnessRaw envWitnessCfg (by decide)).2.1⟩

/-- C7: validation of a full raw specification fails exactly when its
first invalid entry fails, in the declared order with all parameters
checked before any switch: the returned error is the first failing
parameter's error (all earlier parameters validating successfully), or, if
every parameter validates, the first failing switch's error (all earlier
switches validating successfully); the `Except` result makes a partial
validated model on error impossible. -/
theorem validate_fail_fast (c : RawConfig) (e : ValidationError) :
    RawConfig.validate c = .error e ↔
      ((∃ l1 p l2, c.params = l1 ++ p :: l2 ∧
          (∀ p' ∈ l1, ∃ r, RawParam.validate p' c.defaults.optional
            c.defaults.args (default_env_var_of c) = .ok r) ∧
          RawParam.validate p c.defaults.optional c.defaults.args
            (default_env_var_of c) = .error e) ∨
        ((∀ p' ∈ c.params, ∃ r, RawParam.validate p' c.defaults.optional
            c.defaults.args (default_env_var_of c) = .ok r) ∧
          ∃ l1 s l2, c.switches = l1 ++ s :: l2 ∧
            (∀ s' ∈ l1, ∃ t, RawSwitch.validate s'
              (default_env_var_of c) = .ok t) ∧
            RawSwitch.validate s (default_env_var_of c) = .error e)) := by
  constructor
  · intro h
    simp only [RawConfig.validate] at h
    cases h1 : validateList
        (fun p => RawParam.validate p c.defaults.optional c.defaults.args
          (default_env_var_of c)) c.params with
    | error e' =>
      simp [h1] at h
      subst h
      exact Or.inl ((validateList_error_iff _ _ c.params).mp h1)
    | ok ps =>
      simp only [h1] at h
      cases h2 : validateList
          (fun s => RawSwitch.validate s (default_env_var_of c))
          c.switches with
      | error e' =>
        simp [h2] at h
        subst h
        exact Or.inr ⟨(validateList_isOk_iff _ c.params).mp ⟨ps, h1⟩,
          (validateList_error_iff _ _ c.switches).mp h2⟩
      | ok ss => simp [h2] at h
  · intro h
    rcases h with ⟨l1, p, l2, hsplit, hok, hp⟩ | ⟨hall, l1, s, l2, hsplit, hok, hs⟩
    · have h1 : validateList
          (fun p => RawParam.validate p c.defaults.optional c.defaults.args
            (default_env_var_of c)) c.params = .error e :=
        (validateList_error_iff _ e c.params).mpr ⟨l1, p, l2, hsplit, hok, hp⟩
      simp [RawConfig.validate, h1]
    · obtain ⟨ps, h1⟩ := (validateList_isOk_iff
        (fun p => RawParam.validate p c.defaults.optional c.defaults.args
          (default_env_var_of c)) c.params).mpr hall
      have h2 : validateList
          (fun s => RawSwitch.validate s (default_env_var_of c))
          c.switches = .error e :=
        (validateList_error_iff _ e c.switches).mpr ⟨l1, s, l2, hsplit, hok, hs⟩
      simp [RawConfig.validate, h1, h2]

theorem validate_fail_fast_witness :
    RawConfig.validate failFastRaw =
      .error ⟨"bad1", .MandatoryWithDefault⟩ :=
  (validate_fail_fast failFastRaw ⟨"bad1", .MandatoryWithDefault⟩).mpr
    (Or.inl ⟨[], failFastParam1, [failFastParam2], rfl, by simp, by decide⟩)

/-- C8: build-environment manifest discovery reads `CARGO_MANIFEST_DIR`;
when the variable is absent it fails with the distinct
`MissingManifestDirEnvVar` error, and when present it delegates to
filesystem-path resolution of `Cargo.toml` joined to that directory,
converting a load failure into the `Load` error carrying the attempted
path. -/
theorem build_script_manifest_discovery {M : Type}
    (env : String → Option String) (load_path : String → Except LoadErr M) :
    (env cargo_manifest_dir_var = none →
      BuildScript.load_manifest env load_path =
        .error .MissingManifestDirEnvVar) ∧
    (∀ d, env cargo_manifest_dir_var = some d →
      BuildScript.load_manifest env load_path =
        match load_path (pathJoin d "Cargo.toml") with
        | .ok m => .ok m
        | .error le => .error (.Load le.path le.cause)) := by
  constructor
  · intro h
    simp [BuildScript.load_manifest, get_dir, h]
  · intro d h
    simp [BuildScript.load_manifest, get_dir, h]

theorem build_script_manifest_discovery_witness :
    BuildScript.load_manifest (M := Nat) (fun _ => none)
      (fun p => .error ⟨p, "io"⟩) = .error .MissingManifestDirEnvVar :=
  (build_script_manifest_discovery (fun _ => none)
    (fun p => .error ⟨p, "io"⟩)).1 rfl
